import Mathlib

/-!
# ImageIP — verification of the fingerprint-and-signature codec

Shallow embedding of the ImageIP repository's signing/verification core
(`crypto_fingerprint.py`, `signature_utils.py`, `signing_engine.py`,
`signature_verifier.py`, `signature_viewer.py`, `utils.py`).

Conventions of the embedding:
* Python `bytes` values are `List Nat` with every element `< 256`.
* Python `str` values are `List Nat` of Unicode code points.
* Fallible Python code (functions that may raise) returns `Except Unit _`.
* External library primitives used by the source (`hashlib.sha256`,
  `base64.b64encode`/`b64decode`, UTF-8/UTF-16 codecs, piexif's
  `UserComment`) are implemented here according to their standard
  documented semantics. Two disclosed simplifications remain:
  `base64.b64decode` is modelled with strict RFC 4648 validation, whereas
  Python's lenient default first discards non-alphabet bytes — so every
  theorem about decode failure quantifies only over alphabet-only
  payloads, where the two provably coincide; and `UserComment.load`'s JIS
  (`shift_jis`) branch is collapsed to an error — no theorem quantifies
  over JIS-prefixed fields. The ASCII and UNICODE (UTF-16-BE) charset
  paths are modelled faithfully.
-/

namespace ImageIP

/-- Decidable equality for `Except`, needed to evaluate concrete runs. -/
instance instDecEqExcept0 {eps alpha : Type} [DecidableEq eps] [DecidableEq alpha] :
    DecidableEq (Except eps alpha) := fun a b =>
  match a, b with
  | .ok x, .ok y =>
    if h : x = y then .isTrue (by rw [h]) else .isFalse (fun hc => h (Except.ok.inj hc))
  | .error x, .error y =>
    if h : x = y then .isTrue (by rw [h]) else .isFalse (fun hc => h (Except.error.inj hc))
  | .ok _, .error _ => .isFalse (fun hc => Except.noConfusion hc)
  | .error _, .ok _ => .isFalse (fun hc => Except.noConfusion hc)


/-- Code points of a Lean string literal, used to write concrete Python
strings in examples. -/
def strCodes (s : String) : List Nat := s.data.map Char.toNat


def isScalar (c : Nat) : Bool :=
  decide (c < 0x110000) && !(decide (0xD800 ≤ c) && decide (c < 0xE000))

def utf8EncodeChar (c : Nat) : List Nat :=
  if c < 0x80 then [c]
  else if c < 0x800 then [0xC0 + c / 64, 0x80 + c % 64]
  else if c < 0x10000 then
    [0xE0 + c / 4096, 0x80 + c / 64 % 64, 0x80 + c % 64]
  else
    [0xF0 + c / 262144, 0x80 + c / 4096 % 64, 0x80 + c / 64 % 64, 0x80 + c % 64]

def utf8Encode : List Nat → List Nat
  | [] => []
  | c :: cs => utf8EncodeChar c ++ utf8Encode cs

def isContByte (b : Nat) : Bool := decide (0x80 ≤ b) && decide (b < 0xC0)

def consOk (v : Nat) : Except Unit (List Nat) → Except Unit (List Nat)
  | .ok t => .ok (v :: t)
  | .error e => .error e

def val2 (b b1 : Nat) : Nat := (b - 0xC0) * 64 + (b1 - 0x80)

def ok2 (b b1 : Nat) : Bool := isContByte b1 && decide (0x80 ≤ val2 b b1)

def val3 (b b1 b2 : Nat) : Nat := (b - 0xE0) * 4096 + (b1 - 0x80) * 64 + (b2 - 0x80)

def ok3 (b b1 b2 : Nat) : Bool :=
  isContByte b1 && isContByte b2 && decide (0x800 ≤ val3 b b1 b2) && isScalar (val3 b b1 b2)

def val4 (b b1 b2 b3 : Nat) : Nat :=
  (b - 0xF0) * 262144 + (b1 - 0x80) * 4096 + (b2 - 0x80) * 64 + (b3 - 0x80)

def ok4 (b b1 b2 b3 : Nat) : Bool :=
  isContByte b1 && isContByte b2 && isContByte b3 &&
    decide (0x10000 ≤ val4 b b1 b2 b3) && decide (val4 b b1 b2 b3 < 0x110000)

def utf8DecodeOne (l : List Nat) : Except Unit (Nat × List Nat) :=
  match l with
  | [] => .error ()
  | b :: bs =>
    if b < 0x80 then .ok (b, bs)
    else if b < 0xC0 then .error ()
    else if b < 0xE0 then
      match bs with
      | b1 :: rest => if ok2 b b1 then .ok (val2 b b1, rest) else .error ()
      | _ => .error ()
    else if b < 0xF0 then
      match bs with
      | b1 :: b2 :: rest => if ok3 b b1 b2 then .ok (val3 b b1 b2, rest) else .error ()
      | _ => .error ()
    else if b < 0xF8 then
      match bs with
      | b1 :: b2 :: b3 :: rest =>
        if ok4 b b1 b2 b3 then .ok (val4 b b1 b2 b3, rest) else .error ()
      | _ => .error ()
    else .error ()

def utf8DecodeAux : Nat → List Nat → Except Unit (List Nat)
  | _, [] => .ok []
  | 0, _ :: _ => .error ()
  | fuel + 1, b :: bs =>
    match utf8DecodeOne (b :: bs) with
    | .ok (v, rest) => consOk v (utf8DecodeAux fuel rest)
    | .error _ => .error ()

def utf8Decode (l : List Nat) : Except Unit (List Nat) := utf8DecodeAux l.length l

theorem utf8DecodeOne_encodeChar (c : Nat) (hs : isScalar c = true) (l : List Nat) :
    utf8DecodeOne (utf8EncodeChar c ++ l) = .ok (c, l) := by
  have hc : c < 0x110000 ∧ (c < 0xD800 ∨ 0xE000 ≤ c) := by
    simpa [isScalar, Decidable.not_and_iff_or_not] using hs
  by_cases h1 : c < 0x80
  · rw [show utf8EncodeChar c = [c] from by rw [utf8EncodeChar, if_pos h1]]
    simp only [List.singleton_append, utf8DecodeOne, if_pos h1]
  · by_cases h2 : c < 0x800
    · rw [show utf8EncodeChar c = [0xC0 + c / 64, 0x80 + c % 64] from by
        rw [utf8EncodeChar, if_neg h1, if_pos h2]]
      simp only [List.cons_append, List.nil_append, utf8DecodeOne]
      rw [if_neg (by omega), if_neg (by omega), if_pos (by omega : 0xC0 + c / 64 < 0xE0)]
      have hv : val2 (0xC0 + c / 64) (0x80 + c % 64) = c := by unfold val2; omega
      rw [if_pos (by
        simp only [ok2, isContByte, hv, Bool.and_eq_true, decide_eq_true_eq]; omega), hv]
    · by_cases h3 : c < 0x10000
      · rw [show utf8EncodeChar c = [0xE0 + c / 4096, 0x80 + c / 64 % 64, 0x80 + c % 64] from by
          rw [utf8EncodeChar, if_neg h1, if_neg h2, if_pos h3]]
        simp only [List.cons_append, List.nil_append, utf8DecodeOne]
        rw [if_neg (by omega), if_neg (by omega), if_neg (by omega),
          if_pos (by omega : 0xE0 + c / 4096 < 0xF0)]
        have hv : val3 (0xE0 + c / 4096) (0x80 + c / 64 % 64) (0x80 + c % 64) = c := by
          unfold val3; omega
        rw [if_pos (by
          simp only [ok3, isContByte, hv, hs, Bool.and_eq_true, decide_eq_true_eq, and_true]
          omega), hv]
      · rw [show utf8EncodeChar c =
            [0xF0 + c / 262144, 0x80 + c / 4096 % 64, 0x80 + c / 64 % 64, 0x80 + c % 64] from by
          rw [utf8EncodeChar, if_neg h1, if_neg h2, if_neg h3]]
        simp only [List.cons_append, List.nil_append, utf8DecodeOne]
        rw [if_neg (by omega), if_neg (by omega), if_neg (by omega), if_neg (by omega),
          if_pos (by omega : 0xF0 + c / 262144 < 0xF8)]
        have hv : val4 (0xF0 + c / 262144) (0x80 + c / 4096 % 64) (0x80 + c / 64 % 64)
            (0x80 + c % 64) = c := by unfold val4; omega
        rw [if_pos (by
          simp only [ok4, isContByte, hv, Bool.and_eq_true, decide_eq_true_eq]; omega), hv]

theorem utf8EncodeChar_ne_nil (c : Nat) : utf8EncodeChar c ≠ [] := by
  unfold utf8EncodeChar
  split <;> try simp
  split <;> try simp
  split <;> simp

theorem utf8DecodeAux_encodeChar (c : Nat) (hs : isScalar c = true) (l : List Nat) (f : Nat) :
    utf8DecodeAux (f + 1) (utf8EncodeChar c ++ l) = consOk c (utf8DecodeAux f l) := by
  obtain ⟨x, xs, hx⟩ : ∃ x xs, utf8EncodeChar c = x :: xs := by
    cases h : utf8EncodeChar c with
    | nil => exact absurd h (utf8EncodeChar_ne_nil c)
    | cons x xs => exact ⟨x, xs, rfl⟩
  rw [hx, List.cons_append, utf8DecodeAux, ← List.cons_append, ← hx,
    utf8DecodeOne_encodeChar c hs l]

theorem utf8DecodeAux_encode (s : List Nat) (h : ∀ c ∈ s, isScalar c = true) :
    ∀ fuel, s.length ≤ fuel → utf8DecodeAux fuel (utf8Encode s) = .ok s := by
  induction s with
  | nil => intro fuel _; cases fuel <;> rfl
  | cons c cs ih =>
    intro fuel hf
    cases fuel with
    | zero => simp at hf
    | succ f =>
      rw [utf8Encode, utf8DecodeAux_encodeChar c (h c (by simp)),
        ih (fun x hx => h x (by simp [hx])) f (by simp at hf; omega)]
      rfl

theorem utf8Encode_length_ge (s : List Nat) : s.length ≤ (utf8Encode s).length := by
  induction s with
  | nil => simp [utf8Encode]
  | cons c cs ih =>
    rw [utf8Encode, List.length_append, List.length_cons]
    have : 1 ≤ (utf8EncodeChar c).length := by
      cases h : utf8EncodeChar c with
      | nil => exact absurd h (utf8EncodeChar_ne_nil c)
      | cons x xs => simp
    omega

theorem utf8Decode_utf8Encode (s : List Nat) (h : ∀ c ∈ s, isScalar c = true) :
    utf8Decode (utf8Encode s) = .ok s :=
  utf8DecodeAux_encode s h _ (utf8Encode_length_ge s)


/-- Every byte produced by the UTF-8 encoder is `< 256`. -/
theorem utf8Encode_lt_256 (s : List Nat) (h : ∀ c ∈ s, isScalar c = true) :
    ∀ b ∈ utf8Encode s, b < 256 := by
  induction s with
  | nil => simp [utf8Encode]
  | cons c cs ih =>
    intro b hb
    rw [utf8Encode] at hb
    rcases List.mem_append.mp hb with hb | hb
    · have hc : c < 0x110000 := by
        have h' := h c (by simp)
        simp only [isScalar, Bool.and_eq_true, decide_eq_true_eq] at h'
        exact h'.1
      unfold utf8EncodeChar at hb
      split at hb
      · simp at hb; omega
      · split at hb
        · simp at hb; rcases hb with h | h <;> omega
        · split at hb
          · simp at hb; rcases hb with h | h | h <;> omega
          · simp at hb; rcases hb with h | h | h | h <;> omega
    · exact ih (fun x hx => h x (by simp [hx])) b hb



/-- The RFC 4648 Base64 alphabet, as ASCII codes (`A-Z`, `a-z`, `0-9`, `+`, `/`). -/
def b64ToChar (v : Nat) : Nat :=
  if v < 26 then 65 + v
  else if v < 52 then 97 + (v - 26)
  else if v < 62 then 48 + (v - 52)
  else if v = 62 then 43
  else 47

/-- Inverse of the Base64 alphabet; `none` for characters outside it. -/
def b64Val (ch : Nat) : Option Nat :=
  if 65 ≤ ch ∧ ch ≤ 90 then some (ch - 65)
  else if 97 ≤ ch ∧ ch ≤ 122 then some (26 + (ch - 97))
  else if 48 ≤ ch ∧ ch ≤ 57 then some (52 + (ch - 48))
  else if ch = 43 then some 62
  else if ch = 47 then some 63
  else none

/-- `base64.b64encode`: three input bytes become four alphabet characters;
a trailing group of one or two bytes is completed with `=` padding (61). -/
def b64encode : List Nat → List Nat
  | [] => []
  | [a] => [b64ToChar (a / 4), b64ToChar (a % 4 * 16), 61, 61]
  | [a, b] => [b64ToChar (a / 4), b64ToChar (a % 4 * 16 + b / 16), b64ToChar (b % 16 * 4), 61]
  | a :: b :: c :: rest =>
    b64ToChar (a / 4) :: b64ToChar (a % 4 * 16 + b / 16) ::
      b64ToChar (b % 16 * 4 + c / 64) :: b64ToChar (c % 64) :: b64encode rest

/-- Prepend decoded bytes to the result of decoding the remaining input,
propagating failure. -/
def appOk (pre : List Nat) : Except Unit (List Nat) → Except Unit (List Nat)
  | .ok t => .ok (pre ++ t)
  | .error e => .error e

/-- `base64.b64decode`, modelled with RFC 4648 validation: the input is
consumed in groups of four alphabet characters, `=` padding is accepted
only at the end, and anything else fails. Python's default decoder is
laxer (it discards non-alphabet bytes before decoding), so theorems about
decode FAILURE below restrict themselves to alphabet-only inputs, on which
the two semantics agree (`b64decode_error_iff_len`); encoder outputs are
always strictly valid, so round-trip theorems are unaffected. -/
def b64decode : List Nat → Except Unit (List Nat)
  | [] => .ok []
  | c1 :: c2 :: c3 :: c4 :: rest =>
    match b64Val c1, b64Val c2 with
    | some v1, some v2 =>
      if c4 = 61 then
        if rest = [] then
          if c3 = 61 then .ok [v1 * 4 + v2 / 16]
          else
            match b64Val c3 with
            | some v3 => .ok [v1 * 4 + v2 / 16, v2 % 16 * 16 + v3 / 4]
            | none => .error ()
        else .error ()
      else
        match b64Val c3, b64Val c4 with
        | some v3, some v4 =>
          appOk [v1 * 4 + v2 / 16, v2 % 16 * 16 + v3 / 4, v3 % 4 * 64 + v4] (b64decode rest)
        | _, _ => .error ()
    | _, _ => .error ()
  | _ => .error ()

theorem b64Val_toChar (v : Nat) (h : v < 64) : b64Val (b64ToChar v) = some v := by
  unfold b64ToChar b64Val
  split_ifs <;> simp_all <;> omega

theorem b64ToChar_ne_61 (v : Nat) : b64ToChar v ≠ 61 := by
  unfold b64ToChar
  split_ifs <;> omega

theorem b64ToChar_range (v : Nat) : 43 ≤ b64ToChar v ∧ b64ToChar v < 123 := by
  unfold b64ToChar
  split_ifs <;> omega

theorem b64decode_b64encode (B : List Nat) (h : ∀ b ∈ B, b < 256) :
    b64decode (b64encode B) = .ok B := by
  induction B using b64encode.induct with
  | case1 => rfl
  | case2 a =>
    have ha : a < 256 := h a (by simp)
    have hA := b64Val_toChar (a / 4) (by omega)
    have hB := b64Val_toChar (a % 4 * 16) (by omega)
    simp [b64encode, b64decode, hA, hB]
    omega
  | case3 a b =>
    have ha : a < 256 := h a (by simp)
    have hb : b < 256 := h b (by simp)
    have hA := b64Val_toChar (a / 4) (by omega)
    have hB := b64Val_toChar (a % 4 * 16 + b / 16) (by omega)
    have hC := b64Val_toChar (b % 16 * 4) (by omega)
    have hNe := b64ToChar_ne_61 (b % 16 * 4)
    simp [b64encode, b64decode, hA, hB, hC, hNe]
    omega
  | case4 a b c rest ih =>
    have ha : a < 256 := h a (by simp)
    have hb : b < 256 := h b (by simp)
    have hc : c < 256 := h c (by simp)
    have hA := b64Val_toChar (a / 4) (by omega)
    have hB := b64Val_toChar (a % 4 * 16 + b / 16) (by omega)
    have hC := b64Val_toChar (b % 16 * 4 + c / 64) (by omega)
    have hD := b64Val_toChar (c % 64) (by omega)
    have hNe := b64ToChar_ne_61 (c % 64)
    have hIH := ih (fun x hx => h x (by simp [hx]))
    simp [b64encode, b64decode, hA, hB, hC, hD, hNe, hIH, appOk]
    omega

theorem b64encode_range (B : List Nat) :
    ∀ ch ∈ b64encode B, 43 ≤ ch ∧ ch < 123 := by
  induction B using b64encode.induct with
  | case1 => simp [b64encode]
  | case2 a =>
    intro ch hch
    simp only [b64encode, List.mem_cons, List.not_mem_nil, or_false] at hch
    rcases hch with rfl | rfl | rfl | rfl <;> first | exact b64ToChar_range _ | omega
  | case3 a b =>
    intro ch hch
    simp only [b64encode, List.mem_cons, List.not_mem_nil, or_false] at hch
    rcases hch with rfl | rfl | rfl | rfl <;> first | exact b64ToChar_range _ | omega
  | case4 a b c rest ih =>
    intro ch hch
    simp only [b64encode, List.mem_cons] at hch
    rcases hch with rfl | rfl | rfl | rfl | hch
    · exact b64ToChar_range _
    · exact b64ToChar_range _
    · exact b64ToChar_range _
    · exact b64ToChar_range _
    · exact ih ch hch




/-- Rotate a 32-bit word right by `n` (on `Nat`, for `x < 2^32`). -/
def rotr (n x : Nat) : Nat := x / 2 ^ n + x % 2 ^ n * 2 ^ (32 - n)

/-- Logical right shift of a 32-bit word. -/
def shr (n x : Nat) : Nat := x / 2 ^ n

def bigSigma0 (x : Nat) : Nat := rotr 2 x ^^^ rotr 13 x ^^^ rotr 22 x

def bigSigma1 (x : Nat) : Nat := rotr 6 x ^^^ rotr 11 x ^^^ rotr 25 x

def smallSigma0 (x : Nat) : Nat := rotr 7 x ^^^ rotr 18 x ^^^ shr 3 x

def smallSigma1 (x : Nat) : Nat := rotr 17 x ^^^ rotr 19 x ^^^ shr 10 x

def chFn (x y z : Nat) : Nat := (x &&& y) ^^^ ((x ^^^ 0xFFFFFFFF) &&& z)

def majFn (x y z : Nat) : Nat := (x &&& y) ^^^ (x &&& z) ^^^ (y &&& z)

/-- The eight 32-bit working variables / hash state of SHA-256. -/
structure H8 where
  a : Nat
  b : Nat
  c : Nat
  d : Nat
  e : Nat
  f : Nat
  g : Nat
  h : Nat

/-- The 64 SHA-256 round constants (FIPS 180-4). -/
def shaK : List Nat :=
  [1116352408, 1899447441, 3049323471, 3921009573, 961987163, 1508970993,
   2453635748, 2870763221, 3624381080, 310598401, 607225278, 1426881987,
   1925078388, 2162078206, 2614888103, 3248222580, 3835390401, 4022224774,
   264347078, 604807628, 770255983, 1249150122, 1555081692, 1996064986,
   2554220882, 2821834349, 2952996808, 3210313671, 3336571891, 3584528711,
   113926993, 338241895, 666307205, 773529912, 1294757372, 1396182291,
   1695183700, 1986661051, 2177026350, 2456956037, 2730485921, 2820302411,
   3259730800, 3345764771, 3516065817, 3600352804, 4094571909, 275423344,
   430227734, 506948616, 659060556, 883997877, 958139571, 1322822218,
   1537002063, 1747873779, 1955562222, 2024104815, 2227730452, 2361852424,
   2428436474, 2756734187, 3204031479, 3329325298]

/-- The SHA-256 initial hash value (FIPS 180-4). -/
def sha256init : H8 :=
  ⟨1779033703, 3144134277, 1013904242, 2773480762,
   1359893119, 2600822924, 528734635, 1541459225⟩

/-- One SHA-256 compression round. -/
def shaRound (s : H8) (w k : Nat) : H8 :=
  let t1 := (s.h + bigSigma1 s.e + chFn s.e s.f s.g + k + w) % 4294967296
  let t2 := (bigSigma0 s.a + majFn s.a s.b s.c) % 4294967296
  ⟨(t1 + t2) % 4294967296, s.a, s.b, s.c, (s.d + t1) % 4294967296, s.e, s.f, s.g⟩

/-- Message-schedule extension; `acc` is the schedule so far, most recent
word first. -/
def extendW : Nat → List Nat → List Nat
  | 0, acc => acc
  | n + 1, acc =>
    extendW n
      (((smallSigma1 (acc.getD 1 0) + acc.getD 6 0 + smallSigma0 (acc.getD 14 0) +
          acc.getD 15 0) % 4294967296) :: acc)

/-- Big-endian 32-bit words of a 64-byte block. -/
def bytesToWords : List Nat → List Nat
  | b0 :: b1 :: b2 :: b3 :: rest =>
    (b0 * 16777216 + b1 * 65536 + b2 * 256 + b3) :: bytesToWords rest
  | _ => []

/-- SHA-256 compression of one 64-byte block into the running state. -/
def processBlock (s : H8) (block : List Nat) : H8 :=
  let ws := (extendW 48 (bytesToWords block).reverse).reverse
  let t := (ws.zip shaK).foldl (fun st wk => shaRound st wk.1 wk.2) s
  ⟨(s.a + t.a) % 4294967296, (s.b + t.b) % 4294967296, (s.c + t.c) % 4294967296,
   (s.d + t.d) % 4294967296, (s.e + t.e) % 4294967296, (s.f + t.f) % 4294967296,
   (s.g + t.g) % 4294967296, (s.h + t.h) % 4294967296⟩

/-- The 8-byte big-endian message-length trailer of SHA-256 padding. -/
def lenBE (bits : Nat) : List Nat :=
  [bits / 72057594037927936 % 256, bits / 281474976710656 % 256, bits / 1099511627776 % 256,
   bits / 4294967296 % 256, bits / 16777216 % 256, bits / 65536 % 256, bits / 256 % 256,
   bits % 256]

/-- FIPS 180-4 padding: `0x80`, zeros to 56 mod 64, then the bit length. -/
def shaPad (msg : List Nat) : List Nat :=
  msg ++ 128 :: List.replicate ((119 - msg.length % 64) % 64) 0 ++ lenBE (msg.length * 8)

/-- Split into 64-byte blocks (fuel-based recursion; the fuel, set to the
list length in `toBlocks`, is an upper bound on the number of blocks, so the
zero-fuel case is never reached). -/
def toBlocksF : Nat → List Nat → List (List Nat)
  | _, [] => []
  | 0, _ :: _ => []
  | f + 1, x :: xs => (x :: xs).take 64 :: toBlocksF f ((x :: xs).drop 64)

/-- The 64-byte blocks of a padded message. -/
def toBlocks (l : List Nat) : List (List Nat) := toBlocksF l.length l

/-- `hashlib.sha256(msg)`: the digest as eight 32-bit words. -/
def sha256Words (msg : List Nat) : H8 := (toBlocks (shaPad msg)).foldl processBlock sha256init

/-- Lowercase hexadecimal digit of a value `< 16` (as an ASCII code). -/
def hexDigit (n : Nat) : Nat := if n < 10 then 48 + n else 87 + n

/-- The eight lowercase hex digits of one 32-bit word (big-endian). -/
def wordHex (w : Nat) : List Nat :=
  [hexDigit (w / 268435456 % 16), hexDigit (w / 16777216 % 16), hexDigit (w / 1048576 % 16),
   hexDigit (w / 65536 % 16), hexDigit (w / 4096 % 16), hexDigit (w / 256 % 16),
   hexDigit (w / 16 % 16), hexDigit (w % 16)]

/-- Concatenated hex rendering of a list of 32-bit words. -/
def hexConcat : List Nat → List Nat
  | [] => []
  | w :: ws => wordHex w ++ hexConcat ws

/-- `hashlib.sha256(msg).hexdigest()`: the digest as 64 lowercase hex
character codes. -/
def sha256hex (msg : List Nat) : List Nat :=
  let d := sha256Words msg
  hexConcat [d.a, d.b, d.c, d.d, d.e, d.f, d.g, d.h]


/-- Is `c` the code of a lowercase hexadecimal digit (`0-9` or `a-f`)? -/
def isLowerHexDigit (c : Nat) : Bool :=
  (decide (48 ≤ c) && decide (c ≤ 57)) || (decide (97 ≤ c) && decide (c ≤ 102))

/-- Is `c` a character of the Base64 alphabet proper (`=` excluded)? On
inputs made only of such characters, Python's lenient `b64decode`
(`validate=False`, non-alphabet bytes discarded) and strict RFC 4648
decoding coincide: nothing is discarded and the length rule decides. -/
def isB64Char (c : Nat) : Bool :=
  (decide (65 ≤ c) && decide (c ≤ 90)) || (decide (97 ≤ c) && decide (c ≤ 122)) ||
    (decide (48 ≤ c) && decide (c ≤ 57)) || c == 43 || c == 47

theorem isB64Char_range (c : Nat) (h : isB64Char c = true) : 43 ≤ c ∧ c < 123 := by
  simp [isB64Char] at h
  omega

theorem b64Val_isSome_of_isB64Char (c : Nat) (h : isB64Char c = true) :
    ∃ v, b64Val c = some v := by
  simp only [isB64Char, Bool.or_eq_true, Bool.and_eq_true, decide_eq_true_eq,
    beq_iff_eq] at h
  unfold b64Val
  split_ifs <;> first | exact ⟨_, rfl⟩ | omega

theorem isB64Char_ne_61 (c : Nat) (h : isB64Char c = true) : c ≠ 61 := by
  simp [isB64Char] at h
  omega

theorem appOk_eq_error (pre : List Nat) (x : Except Unit (List Nat)) :
    appOk pre x = .error () ↔ x = .error () := by
  cases x <;> simp [appOk]

/-- On alphabet-only input, strict Base64 decoding fails exactly when the
length is not a multiple of four — the same rule Python's lenient decoder
applies once there is nothing to discard and no padding to interpret. -/
theorem b64decode_error_iff_len_aux (n : Nat) : ∀ r : List Nat, r.length ≤ n →
    (∀ ch ∈ r, isB64Char ch = true) →
    (b64decode r = .error () ↔ ¬ r.length % 4 = 0) := by
  induction n with
  | zero =>
    intro r hr _
    rw [List.length_eq_zero.mp (show r.length = 0 by omega)]
    simp [b64decode]
  | succ n ihn =>
    intro r hr h
    rcases r with _ | ⟨c1, _ | ⟨c2, _ | ⟨c3, _ | ⟨c4, rest⟩⟩⟩⟩
    · simp [b64decode]
    · simp [b64decode]
    · simp [b64decode]
    · simp [b64decode]
    · obtain ⟨v1, hv1⟩ := b64Val_isSome_of_isB64Char c1 (h c1 (by simp))
      obtain ⟨v2, hv2⟩ := b64Val_isSome_of_isB64Char c2 (h c2 (by simp))
      obtain ⟨v3, hv3⟩ := b64Val_isSome_of_isB64Char c3 (h c3 (by simp))
      obtain ⟨v4, hv4⟩ := b64Val_isSome_of_isB64Char c4 (h c4 (by simp))
      have hc4 : c4 ≠ 61 := isB64Char_ne_61 c4 (h c4 (by simp))
      have hih := ihn rest (by simp at hr; omega) (fun x hx => h x (by simp [hx]))
      simp only [b64decode, hv1, hv2, hv3, hv4, if_neg hc4, appOk_eq_error, hih,
        List.length_cons]
      omega

theorem b64decode_error_iff_len (r : List Nat) (h : ∀ ch ∈ r, isB64Char ch = true) :
    b64decode r = .error () ↔ ¬ r.length % 4 = 0 :=
  b64decode_error_iff_len_aux r.length r (le_refl _) h

theorem hexDigit_mod16 (n : Nat) : isLowerHexDigit (hexDigit (n % 16)) = true := by
  unfold hexDigit isLowerHexDigit
  have h16 : n % 16 < 16 := by omega
  split_ifs <;> simp <;> omega

theorem wordHex_hex (w : Nat) : ∀ c ∈ wordHex w, isLowerHexDigit c = true := by
  intro c hc
  simp only [wordHex, List.mem_cons, List.not_mem_nil, or_false] at hc
  rcases hc with rfl | rfl | rfl | rfl | rfl | rfl | rfl | rfl <;> exact hexDigit_mod16 _

theorem hexConcat_hex (ws : List Nat) : ∀ c ∈ hexConcat ws, isLowerHexDigit c = true := by
  induction ws with
  | nil => simp [hexConcat]
  | cons w ws ih =>
    intro c hc
    rw [hexConcat] at hc
    rcases List.mem_append.mp hc with hc | hc
    · exact wordHex_hex w c hc
    · exact ih c hc

theorem hexConcat_length (ws : List Nat) : (hexConcat ws).length = 8 * ws.length := by
  induction ws with
  | nil => simp [hexConcat]
  | cons w ws ih =>
    rw [hexConcat, List.length_append, ih]
    simp [wordHex]
    ring

theorem sha256hex_length (m : List Nat) : (sha256hex m).length = 64 := by
  rw [show sha256hex m = hexConcat [(sha256Words m).a, (sha256Words m).b, (sha256Words m).c,
    (sha256Words m).d, (sha256Words m).e, (sha256Words m).f, (sha256Words m).g,
    (sha256Words m).h] from rfl, hexConcat_length]
  rfl

theorem sha256hex_hexdigits (m : List Nat) : ∀ c ∈ sha256hex m, isLowerHexDigit c = true :=
  fun c hc => hexConcat_hex _ c hc









/-- PIL image modes that appear in the source's checks. -/
inductive PMode
  | RGB
  | RGBA
  | LA
  | L
  | P
  deriving DecidableEq, Repr

/-- A decoded image as the PIL capability presents it: its mode, whether
`"transparency"` is in `image.info`, and its pixel grid in row-major order
as RGBA samples (the data `Image.convert` re-samples from). -/
structure PILImage where
  mode : PMode
  infoTransparency : Bool
  px : List (Nat × Nat × Nat × Nat)
  deriving DecidableEq, Repr

/-- `image.convert("RGB").tobytes()`: 3 bytes per pixel, row-major. -/
def rgbBytes : List (Nat × Nat × Nat × Nat) → List Nat
  | [] => []
  | (r, g, b, _) :: rest => r :: g :: b :: rgbBytes rest

/-- `image.convert("RGBA").tobytes()`: 4 bytes per pixel, row-major. -/
def rgbaBytes : List (Nat × Nat × Nat × Nat) → List Nat
  | [] => []
  | (r, g, b, a) :: rest => r :: g :: b :: a :: rgbaBytes rest

/-- `crypto_fingerprint.compute_visual_hash` lines 72-75: the canonical
pixel bytes — `mode = "RGBA" if img.mode in ("RGBA", "LA") else "RGB"`,
then `img.convert(mode).tobytes()`. -/
def canonicalPixelBytes (im : PILImage) : List Nat :=
  if im.mode = .RGBA ∨ im.mode = .LA then rgbaBytes im.px else rgbBytes im.px

/-- `crypto_fingerprint.compute_visual_hash`: SHA-256 hex digest of the
canonical pixel bytes concatenated with the attribution bytes. -/
def compute_visual_hash (im : PILImage) (attribution : List Nat) : List Nat :=
  sha256hex (canonicalPixelBytes im ++ attribution)

/-- `utils.has_transparency`: alpha-bearing mode, or palette mode with
transparency info. -/
def has_transparency (im : PILImage) : Bool :=
  im.mode = .RGBA || im.mode = .LA || (im.mode = .P && im.infoTransparency)

/-- Decimal rendering of a number, as an f-string interpolates an `int`. -/
def natCodes (n : Nat) : List Nat := (Nat.toDigits 10 n).map Char.toNat

/-- `crypto_fingerprint.get_attribution_bytes`:
`f"{author} ©{year} {copyright_holder}. {license}".encode("utf-8")`. -/
def get_attribution_bytes (author copyright_holder license year : List Nat) : List Nat :=
  utf8Encode (author ++ strCodes " ©" ++ year ++ strCodes " " ++
    copyright_holder ++ strCodes ". " ++ license)

/-- ASCII whitespace, the characters Python's `str.split()` splits on
(the non-ASCII Unicode whitespace Python also splits on is outside the
byte-oriented inputs this repository handles). -/
def isPyWs (c : Nat) : Bool := c == 32 || c == 9 || c == 10 || c == 13 || c == 11 || c == 12

/-- Helper of `splitWs`: `cur` is the reversed current word. -/
def splitWsAux : List Nat → List Nat → List (List Nat)
  | cur, [] => if cur = [] then [] else [cur.reverse]
  | cur, c :: rest =>
    if isPyWs c then
      if cur = [] then splitWsAux [] rest else cur.reverse :: splitWsAux [] rest
    else splitWsAux (c :: cur) rest

/-- Python `str.split()` with no argument: maximal whitespace-free words,
whitespace runs and edges dropped. -/
def splitWs (s : List Nat) : List (List Nat) := splitWsAux [] s

/-- `" ".join(tokens)`. -/
def joinSpace : List (List Nat) → List Nat
  | [] => []
  | [t] => t
  | t :: t2 :: ts => t ++ 32 :: joinSpace (t2 :: ts)

/-- Modelled from the spec: `normalise_strings` is imported from `utils`
by `signing_engine.py` and `signature_utils.py` but absent from
`src/utils.py`; per the spec it normalizes whitespace — runs of whitespace
collapsed to one space, leading and trailing whitespace trimmed —
i.e. `" ".join(s.split())`. -/
def normalise_strings (s : List Nat) : List Nat := joinSpace (splitWs s)

theorem splitWsAux_cons_ws (c : Nat) (hc : isPyWs c = true) (s : List Nat) :
    splitWsAux [] (c :: s) = splitWsAux [] s := by
  simp [splitWsAux, hc]

theorem splitWs_cons_ws (c : Nat) (hc : isPyWs c = true) (s : List Nat) :
    splitWs (c :: s) = splitWs s := splitWsAux_cons_ws c hc s

theorem splitWsAux_append_ws (w : Nat) (hw : isPyWs w = true) (s : List Nat) :
    ∀ cur, splitWsAux cur (s ++ [w]) = splitWsAux cur s := by
  induction s with
  | nil =>
    intro cur
    by_cases h : cur = [] <;> simp [splitWsAux, hw, h]
  | cons c s ih =>
    intro cur
    by_cases h : isPyWs c <;> by_cases h2 : cur = [] <;>
      simp [splitWsAux, h, h2, ih]

theorem splitWs_append_ws (w : Nat) (hw : isPyWs w = true) (s : List Nat) :
    splitWs (s ++ [w]) = splitWs s := splitWsAux_append_ws w hw s []

theorem splitWsAux_collapse (w1 w2 : Nat) (h1 : isPyWs w1 = true) (h2 : isPyWs w2 = true)
    (pre post : List Nat) :
    ∀ cur, splitWsAux cur (pre ++ w1 :: w2 :: post) = splitWsAux cur (pre ++ w1 :: post) := by
  induction pre with
  | nil =>
    intro cur
    by_cases h : cur = [] <;> simp [splitWsAux, h1, h2, h]
  | cons c pre ih =>
    intro cur
    by_cases h : isPyWs c <;> by_cases hc : cur = [] <;>
      simp [splitWsAux, h, hc, ih]

theorem splitWs_collapse (w1 w2 : Nat) (h1 : isPyWs w1 = true) (h2 : isPyWs w2 = true)
    (pre post : List Nat) :
    splitWs (pre ++ w1 :: w2 :: post) = splitWs (pre ++ w1 :: post) :=
  splitWsAux_collapse w1 w2 h1 h2 pre post []

theorem normalise_strings_congr (s t : List Nat) (h : splitWs s = splitWs t) :
    normalise_strings s = normalise_strings t := by
  rw [normalise_strings, normalise_strings, h]




/-- Is `c` an ASCII decimal digit? -/
def isDigit (c : Nat) : Bool := decide (48 ≤ c) && decide (c ≤ 57)

/-- `datetime.strptime(s, "%Y:%m:%d %H:%M:%S").year`: parse an EXIF
date-time string and return its year, `none` when parsing fails.
Modelled with fixed-width fields and the field-range checks `strptime`
performs (calendar-level validation such as rejecting February 31 is not
modelled; the theorems below use dates both models accept or reject). -/
def parseDT (s : List Nat) : Option Nat :=
  match s with
  | [y1, y2, y3, y4, c1, mo1, mo2, c2, d1, d2, sp, h1, h2, c3, mi1, mi2, c4, s1, s2] =>
    if ([y1, y2, y3, y4, mo1, mo2, d1, d2, h1, h2, mi1, mi2, s1, s2].all isDigit &&
        c1 == 58 && c2 == 58 && sp == 32 && c3 == 58 && c4 == 58) then
      let year := (y1 - 48) * 1000 + (y2 - 48) * 100 + (y3 - 48) * 10 + (y4 - 48)
      let mo := (mo1 - 48) * 10 + (mo2 - 48)
      let dy := (d1 - 48) * 10 + (d2 - 48)
      let hh := (h1 - 48) * 10 + (h2 - 48)
      let mi := (mi1 - 48) * 10 + (mi2 - 48)
      let ss := (s1 - 48) * 10 + (s2 - 48)
      if (decide (1 ≤ mo) && decide (mo ≤ 12) && decide (1 ≤ dy) && decide (dy ≤ 31) &&
          decide (hh ≤ 23) && decide (mi ≤ 59) && decide (ss ≤ 61)) then
        some year
      else none
    else none
  | _ => none

/-- The three EXIF date tags `extract_creation_year` consults, in its order:
`DateTimeOriginal`, `DateTimeDigitized`, `DateTime`. -/
structure ExifDates where
  dtOriginal : Option (List Nat)
  dtDigitized : Option (List Nat)
  dtDateTime : Option (List Nat)
  deriving DecidableEq

/-- File metadata environment of one image: the outcome of `piexif.load`
(which may raise) and of `os.stat` (ctime and mtime as lexicographically
ordered (year, second-within-year) pairs, the order `datetime` values have). -/
structure FileMeta where
  exifRes : Except Unit ExifDates
  statRes : Except Unit ((Nat × Nat) × (Nat × Nat))
  deriving DecidableEq

/-- The loop `for ifd, tag in possible_tags: val = ...; if val:` — the first
tag with a truthy (present, non-empty) value. -/
def firstTruthy : List (Option (List Nat)) → Option (List Nat)
  | [] => none
  | some v :: rest => if v = [] then firstTruthy rest else some v
  | none :: rest => firstTruthy rest

/-- The earlier of two (year, tiebreak) datetimes. -/
def dtMin (a b : (Nat × Nat)) : Nat × Nat :=
  if a.1 < b.1 ∨ (a.1 = b.1 ∧ a.2 ≤ b.2) then a else b

/-- The EXIF stage of `extract_creation_year` (the `try` block): the first
truthy date tag is parsed; a parse failure raises and yields nothing —
later tags are never consulted. -/
def exifYearOf (m : FileMeta) : Option Nat :=
  match m.exifRes with
  | .error _ => none
  | .ok d =>
    match firstTruthy [d.dtOriginal, d.dtDigitized, d.dtDateTime] with
    | none => none
    | some v => parseDT v

/-- `utils.extract_creation_year`: the year of the first truthy EXIF date
tag if it parses; on any failure inside the `try` (including a parse failure,
which abandons the remaining tags), the year of the earlier of ctime and
mtime; if `os.stat` also fails, `datetime.now().year`. -/
def extract_creation_year (m : FileMeta) (nowYear : Nat) : Nat :=
  match exifYearOf m with
  | some y => y
  | none =>
    match m.statRes with
    | .ok (ct, mt) => (dtMin ct mt).1
    | .error _ => nowYear

/-- The year-extraction rule as claim C10 words it: the year of the first of
the three date tags that parses (written to compare against the source's
`extract_creation_year`, which never looks past the first populated tag). -/
def specFirstParsedYear : List (Option (List Nat)) → Option Nat
  | [] => none
  | some v :: rest =>
    match parseDT v with
    | some y => some y
    | none => specFirstParsedYear rest
  | none :: rest => specFirstParsedYear rest

/-- The EXIF `UserComment` ASCII charset prefix `b"ASCII\x00\x00\x00"`. -/
def ucPrefixAscii : List Nat := [65, 83, 67, 73, 73, 0, 0, 0]

/-- The EXIF `UserComment` UNICODE charset prefix `b"UNICODE\x00"`. -/
def ucPrefixUnicode : List Nat := [85, 78, 73, 67, 79, 68, 69, 0]

/-- Strict `bytes.decode("utf_16_be")`: big-endian 16-bit units, surrogate
pairs combined; a truncated pair or a lone surrogate is an error (fuel-based;
the fuel, set to the input length, bounds the number of steps). -/
def utf16beDecodeF : Nat → List Nat → Except Unit (List Nat)
  | _, [] => .ok []
  | 0, _ :: _ => .error ()
  | _ + 1, [_] => .error ()
  | f + 1, b0 :: b1 :: rest =>
    let u := b0 % 256 * 256 + b1 % 256
    if u < 0xD800 ∨ 0xE000 ≤ u then consOk u (utf16beDecodeF f rest)
    else if u < 0xDC00 then
      match rest with
      | b2 :: b3 :: rest2 =>
        let u2 := b2 % 256 * 256 + b3 % 256
        if 0xDC00 ≤ u2 ∧ u2 < 0xE000 then
          consOk (0x10000 + (u - 0xD800) * 1024 + (u2 - 0xDC00)) (utf16beDecodeF f rest2)
        else .error ()
      | _ => .error ()
    else .error ()

def utf16beDecode (l : List Nat) : Except Unit (List Nat) := utf16beDecodeF l.length l

/-- piexif `UserComment.load`: on the ASCII prefix, decode the body as
ASCII text; on the UNICODE prefix, decode the body as UTF-16-BE. The JIS
prefix (`shift_jis`, not modelled here), the undefined prefix, unrecognized
prefixes and fields shorter than eight bytes all raise, and are collapsed
to a single error. No theorem below relies on the behaviour of the JIS
branch; this repository's writer only ever produces the ASCII form. -/
def userCommentLoad (b : List Nat) : Except Unit (List Nat) :=
  if b.take 8 = ucPrefixAscii then
    if (b.drop 8).all (fun c => decide (c < 128)) then .ok (b.drop 8) else .error ()
  else if b.take 8 = ucPrefixUnicode then utf16beDecode (b.drop 8)
  else .error ()

/-- piexif `UserComment.dump` with its default ASCII encoding: the ASCII
charset prefix followed by the ASCII-encoded text; fails on non-ASCII. -/
def userCommentDump (s : List Nat) : Except Unit (List Nat) :=
  if s.all (fun c => decide (c < 128)) then .ok (ucPrefixAscii ++ s) else .error ()

/-- `signature_utils.extract_signature_from_exif` lines 44-47: strip the
string header `"ASCII\0\0\0"` from the loaded UserComment when present. -/
def stripSigHeader (uc : List Nat) : List Nat :=
  if uc.take 8 = ucPrefixAscii then uc.drop 8 else uc

/-- Lines 44-53 of `signature_utils.extract_signature_from_exif`: strip the
optional string header, Base64-decode, decode the result as UTF-8. -/
def decodeUserCommentStr (uc : List Nat) : Except Unit (List Nat) :=
  match b64decode (stripSigHeader uc) with
  | .ok sig => utf8Decode sig
  | .error e => .error e

/-- The dynamic value of the EXIF UserComment field as the source sees it:
a tuple of byte chunks, a byte string, or something else entirely. -/
inductive ExifVal where
  | tup : List (List Nat) → ExifVal
  | bytesVal : List Nat → ExifVal
  | otherVal : ExifVal
  deriving DecidableEq, Repr

/-- The byte-string path of `extract_signature_from_exif`:
`UserComment.load`, strip the optional header, Base64-decode, UTF-8-decode. -/
def extractFromBytes (b : List Nat) : Except Unit (List Nat) :=
  match userCommentLoad b with
  | .ok uc => decodeUserCommentStr uc
  | .error e => .error e

/-- `signature_utils.extract_signature_from_exif`: a tuple is replaced by
its FIRST element (`exif_data = exif_data[0]`, an empty tuple raises), a
non-bytes value raises, then the byte-string path runs. -/
def extract_signature_from_exif : ExifVal → Except Unit (List Nat)
  | .tup [] => .error ()
  | .tup (b :: _) => extractFromBytes b
  | .bytesVal b => extractFromBytes b
  | .otherVal => .error ()

/-- The decode rule as claim C5 words it: a tuple of byte chunks is
normalized by CONCATENATING the chunks into one byte string (written to
compare against the source, which keeps only the first chunk). -/
def specExtractConcat : ExifVal → Except Unit (List Nat)
  | .tup [] => .error ()
  | .tup chunks => extractFromBytes chunks.flatten
  | .bytesVal b => extractFromBytes b
  | .otherVal => .error ()

/-- The attribution profile (`profile.get("author"/"copyright"/"license")`). -/
structure Profile where
  author : List Nat
  copyright : List Nat
  license : List Nat
  deriving DecidableEq

/-- The attribution bytes `compute_image_fingerprint` builds from the
caller's profile: each profile field whitespace-normalised, serialized with
the extracted year. -/
def attributionFromProfile (p : Profile) (year : Nat) : List Nat :=
  get_attribution_bytes (normalise_strings p.author) (normalise_strings p.copyright)
    (normalise_strings p.license) (natCodes year)

/-- `signature_utils.compute_image_fingerprint`: extract the creation year,
normalise the PROFILE's attribution fields, and hash the image's canonical
pixels with that attribution. -/
def compute_image_fingerprint (im : PILImage) (meta : FileMeta) (p : Profile)
    (nowYear : Nat) : List Nat :=
  compute_visual_hash im (attributionFromProfile p (extract_creation_year meta nowYear))



/-- Lowercase an ASCII name, as `str.lower()` does on filenames. -/
def toLowerCodes (s : List Nat) : List Nat :=
  s.map (fun c => if 65 ≤ c ∧ c ≤ 90 then c + 32 else c)

/-- `os.path.splitext(name)[1]`: the extension from the last dot, empty when
there is no dot or only leading dots precede it. -/
def extOf (name : List Nat) : List Nat :=
  let revAfter := name.reverse.takeWhile (fun c => !(c == 46))
  if revAfter.length = name.length then []
  else
    let dotPos := name.length - revAfter.length - 1
    if (name.take dotPos).any (fun c => !(c == 46)) then 46 :: revAfter.reverse
    else []

/-- `ext in (".jpg", ".jpeg")` on the lowercased `splitext` extension
(phase-1 dispatch of `sign_images_in_folder`). -/
def phase1IsJpeg (name : List Nat) : Bool :=
  toLowerCodes (extOf name) == strCodes ".jpg" ||
    toLowerCodes (extOf name) == strCodes ".jpeg"

/-- `os.path.splitext(name)[0]`. -/
def stemOf (name : List Nat) : List Nat := name.take (name.length - (extOf name).length)

/-- `f.lower().endswith((".jpg", ".jpeg"))` (phase-2 listing). -/
def hasJpegExt (name : List Nat) : Bool :=
  (strCodes ".jpg").isSuffixOf (toLowerCodes name) ||
    (strCodes ".jpeg").isSuffixOf (toLowerCodes name)

/-- `f.lower().endswith(SUPPORTED_FORMATS)`. -/
def hasSupportedExt (name : List Nat) : Bool :=
  hasJpegExt name || (strCodes ".png").isSuffixOf (toLowerCodes name) ||
    (strCodes ".webp").isSuffixOf (toLowerCodes name) ||
    (strCodes ".tiff").isSuffixOf (toLowerCodes name) ||
    (strCodes ".bmp").isSuffixOf (toLowerCodes name)

/-- `image.convert("RGB")`: drop the alpha channel. -/
def toRGB (im : PILImage) : PILImage :=
  ⟨.RGB, false, im.px.map (fun p => (p.1, p.2.1, p.2.2.1, 255))⟩

/-- One file of the folder: its name, its decoded image (`Image.open` may
raise, hence `Except`), and its filesystem/EXIF metadata. -/
structure FileEntry where
  name : List Nat
  img : Except Unit PILImage
  meta : FileMeta
  deriving DecidableEq

/-- The observable per-file outcomes of `sign_images_in_folder`. -/
inductive SignAction where
  | taggedTransparent (name : List Nat) (label : List Nat)
  | converted (src dst : List Nat)
  | failedProcess (name : List Nat)
  | signedCarrier (name : List Nat) (carrier : List Nat)
  | signFailed (name : List Nat)
  | signError (name : List Nat)
  deriving DecidableEq, Repr

/-- `f"© {year} {profile.get('copyright', '')}"`, the lightweight
non-cryptographic provenance label written for transparent images. -/
def copyrightLabel (p : Profile) (year : Nat) : List Nat :=
  strCodes "© " ++ natCodes year ++ strCodes " " ++ p.copyright

/-- The conversion loop of `sign_images_in_folder` (lines 100-122), one
file: non-JPEG supported files are tagged-and-skipped when transparent,
otherwise converted to `<stem>_converted.jpg`; failures are reported and
skipped. Returns the entry added to the folder (if any) and the action. -/
def phase1Step (jpegCodec : PILImage → PILImage) (convMeta : FileMeta) (profile : Profile)
    (nowYear : Nat) (e : FileEntry) : Option FileEntry × List SignAction :=
  if hasSupportedExt e.name && !phase1IsJpeg e.name then
    match e.img with
    | .error _ => (none, [.failedProcess e.name])
    | .ok im =>
      if has_transparency im then
        (none, [.taggedTransparent e.name
          (copyrightLabel profile (extract_creation_year e.meta nowYear))])
      else
        let dst := stemOf e.name ++ strCodes "_converted.jpg"
        (some ⟨dst, .ok (jpegCodec (toRGB im)), convMeta⟩, [.converted e.name dst])
  else (none, [])

/-- The conversion loop over the folder listing. -/
def phase1 (jpegCodec : PILImage → PILImage) (convMeta : FileMeta) (profile : Profile)
    (nowYear : Nat) : List FileEntry → List FileEntry × List SignAction
  | [] => ([], [])
  | e :: rest =>
    let (adds, acts) := phase1 jpegCodec convMeta profile nowYear rest
    match phase1Step jpegCodec convMeta profile nowYear e with
    | (some add, a) => (add :: adds, a ++ acts)
    | (none, a) => (adds, a ++ acts)

/-- The round-trip self-check of `sign_images_in_folder` lines 161-163:
`base64.b64decode(signature_b64).decode("utf-8") == signature_str`. -/
def roundTripChk (sig : List Nat) : Bool :=
  match b64decode (b64encode (utf8Encode sig)) with
  | .ok bs => decide (utf8Decode bs = .ok sig)
  | .error _ => false

/-- The signing loop of `sign_images_in_folder` (lines 127-193), one JPEG
file: extract year, normalise the profile fields, build attribution, save
the image re-encoded as RGB JPEG, fingerprint the SAVED file, sign, Base64
the signature, run the round-trip assert, and embed via `UserComment.dump`.
Any failure skips just this file. -/
def phase2Step (jpegCodec : PILImage → PILImage) (signer : List Nat → Option (List Nat))
    (profile : Profile) (nowYear : Nat) (e : FileEntry) : List SignAction :=
  if hasJpegExt e.name then
    match e.img with
    | .error _ => [.signError e.name]
    | .ok im =>
      let year := extract_creation_year e.meta nowYear
      let attribution := attributionFromProfile profile year
      let stored := jpegCodec (toRGB im)
      let sha := compute_visual_hash stored attribution
      match signer sha with
      | none => [.signFailed e.name]
      | some sig =>
        if roundTripChk sig then
          match userCommentDump (b64encode (utf8Encode sig)) with
          | .ok carrier => [.signedCarrier e.name carrier]
          | .error _ => [.signError e.name]
        else [.signError e.name]
  else []

/-- The signing loop over the post-conversion folder listing. -/
def phase2 (jpegCodec : PILImage → PILImage) (signer : List Nat → Option (List Nat))
    (profile : Profile) (nowYear : Nat) (folder : List FileEntry) : List SignAction :=
  (folder.map (phase2Step jpegCodec signer profile nowYear)).flatten

/-- `signing_engine.sign_images_in_folder`: the conversion pass over the
initial listing, then the signing pass over the listing extended with the
converted files. `jpegCodec` models saving as JPEG and re-opening;
`signer` models `gpg_manager.sign_data`; `convMeta` is the metadata of a
freshly written converted file. -/
def sign_images_in_folder (jpegCodec : PILImage → PILImage)
    (signer : List Nat → Option (List Nat)) (convMeta : FileMeta) (profile : Profile)
    (nowYear : Nat) (folder : List FileEntry) : List SignAction :=
  let (adds, acts1) := phase1 jpegCodec convMeta profile nowYear folder
  acts1 ++ phase2 jpegCodec signer profile nowYear (folder ++ adds)

/-- Truthiness of the raw UserComment value (`if not raw_user_comment`). -/
def exifValTruthy : ExifVal → Bool
  | .tup [] => false
  | .bytesVal [] => false
  | _ => true

/-- The attribution-bearing EXIF fields of one stored image, as the
verifiers read them back. -/
structure ExifStore where
  userComment : Option ExifVal
  artist : Option (List Nat)
  xpauthor : Option (List Nat)
  xpkeywords : Option (List Nat)
  deriving DecidableEq

/-- `bytes.decode("utf-8", "ignore")`: decode, skipping undecodable bytes
(fuel-based; the fuel, set to the input length, bounds the number of steps). -/
def utf8DecodeIgnoreF : Nat → List Nat → List Nat
  | _, [] => []
  | 0, _ => []
  | f + 1, b :: bs =>
    match utf8DecodeOne (b :: bs) with
    | .ok (v, rest) => v :: utf8DecodeIgnoreF f rest
    | .error _ => utf8DecodeIgnoreF f bs

def utf8DecodeIgnore (l : List Nat) : List Nat := utf8DecodeIgnoreF l.length l

/-- `bytes.decode("utf-16le", "ignore")`: little-endian 16-bit units,
surrogate pairs combined, lone surrogates and a trailing odd byte ignored. -/
def utf16leDecodeF : Nat → List Nat → List Nat
  | _, [] => []
  | _, [_] => []
  | 0, _ => []
  | f + 1, b0 :: b1 :: rest =>
    let u := b0 % 256 + 256 * (b1 % 256)
    if u < 0xD800 ∨ 0xE000 ≤ u then u :: utf16leDecodeF f rest
    else if u < 0xDC00 then
      match rest with
      | b2 :: b3 :: rest2 =>
        let u2 := b2 % 256 + 256 * (b3 % 256)
        if 0xDC00 ≤ u2 ∧ u2 < 0xE000 then
          (0x10000 + (u - 0xD800) * 1024 + (u2 - 0xDC00)) :: utf16leDecodeF f rest2
        else utf16leDecodeF f rest
      | _ => []
    else utf16leDecodeF f rest

def utf16leDecodeIgnore (l : List Nat) : List Nat := utf16leDecodeF l.length l

/-- Python `str.strip()`: remove leading and trailing whitespace. -/
def stripPy (s : List Nat) : List Nat :=
  ((s.dropWhile isPyWs).reverse.dropWhile isPyWs).reverse

/-- The attribution bytes `verify_signed_image` (and the viewer) rebuild
from the STORED fields: `Artist` UTF-8-decoded and stripped, `XPAuthor` and
`XPKeywords` UTF-16LE-decoded and stripped (absent fields give `""`), the
year re-extracted from the file. No whitespace normalisation is applied. -/
def attributionFromExif (store : ExifStore) (year : Nat) : List Nat :=
  let author := stripPy (utf8DecodeIgnore (store.artist.getD []))
  let ch :=
    match store.xpauthor with
    | some v => stripPy (utf16leDecodeIgnore v)
    | none => []
  let lic :=
    match store.xpkeywords with
    | some v => stripPy (utf16leDecodeIgnore v)
    | none => []
  get_attribution_bytes author ch lic (natCodes year)

/-- `signature_viewer.verify_signed_image`: read the carrier and the stored
attribution fields, re-extract the year, recompute the fingerprint from the
CURRENT pixels and STORED attribution, and call the GPG verifier. Every
failure (no field, malformed field, any exception) returns `false`; a
verifier mismatch also returns `false` — never an exception. -/
def verify_signed_image (gpgVerify : List Nat → List Nat → Bool) (im : PILImage)
    (meta : FileMeta) (store : ExifStore) (nowYear : Nat) : Bool :=
  match store.userComment with
  | none => false
  | some raw =>
    if exifValTruthy raw then
      match extract_signature_from_exif raw with
      | .error _ => false
      | .ok signature =>
        let year := extract_creation_year meta nowYear
        let sha := compute_visual_hash im (attributionFromExif store year)
        gpgVerify sha signature
    else false

/-- `signature_verifier.verify_image_signature`: read and decode the
carrier, recompute the fingerprint via `compute_image_fingerprint` — from
the caller's PROFILE, not the stored fields — and call the GPG verifier.
A missing or malformed field raises, and a verifier mismatch also raises
(`ValueError("Signature verification failed.")`); only success returns. -/
def verify_image_signature (gpgVerify : List Nat → List Nat → Bool) (im : PILImage)
    (meta : FileMeta) (store : ExifStore) (profile : Profile) (nowYear : Nat) :
    Except Unit Bool :=
  match store.userComment with
  | none => .error ()
  | some raw =>
    if exifValTruthy raw then
      match extract_signature_from_exif raw with
      | .error _ => .error ()
      | .ok signature =>
        let sha := compute_image_fingerprint im meta profile nowYear
        if gpgVerify sha signature then .ok true else .error ()
    else .error ()


theorem stripSigHeader_noop (uc : List Nat) (h : ∀ ch ∈ uc, 43 ≤ ch) :
    stripSigHeader uc = uc := by
  rw [stripSigHeader, if_neg]
  intro hc
  have h0 : (0 : Nat) ∈ uc.take 8 := by rw [hc]; simp [ucPrefixAscii]
  have := h 0 (List.take_subset 8 uc h0)
  omega

/-- C1: the fingerprint of an image and attribution bytes is the SHA-256
digest of the canonical pixel bytes followed by the attribution bytes
(pixels-then-attribution; the swapped order gives a different digest),
rendered as a 64-character lowercase-hexadecimal string, and it depends on
nothing but those two byte strings. -/
theorem C1_fingerprint_sha256_pixels_then_attribution :
    (∀ im attribution, compute_visual_hash im attribution =
      sha256hex (canonicalPixelBytes im ++ attribution))
    ∧ (∀ im attribution, (compute_visual_hash im attribution).length = 64)
    ∧ (∀ im attribution, ∀ c ∈ compute_visual_hash im attribution, isLowerHexDigit c = true)
    ∧ (∀ im im' attribution, canonicalPixelBytes im = canonicalPixelBytes im' →
        compute_visual_hash im attribution = compute_visual_hash im' attribution)
    ∧ (∃ pix attr : List Nat, sha256hex (pix ++ attr) ≠ sha256hex (attr ++ pix)) := by
  refine ⟨fun im a => rfl, fun im a => sha256hex_length _,
    fun im a c hc => sha256hex_hexdigits _ c hc, ?_, ⟨[0], [1], by decide⟩⟩
  intro im im' a h
  rw [compute_visual_hash, compute_visual_hash, h]

/-- Witness for C1: a palette image with transparency info and a plain RGB
image that decode to the same samples canonicalize identically, so their
fingerprints agree. -/
theorem C1_witness :
    compute_visual_hash ⟨.P, true, [(1, 2, 3, 4)]⟩ [5] =
      compute_visual_hash ⟨.RGB, false, [(1, 2, 3, 9)]⟩ [5] :=
  C1_fingerprint_sha256_pixels_then_attribution.2.2.2.1 _ _ _ (by decide)

/-- C3: the attribution bytes are exactly the UTF-8 encoding of
`"{author} ©{year} {copyrightHolder}. {license}"` in that order with that
punctuation; on ("Jane Doe", "Acme", "CC BY", "2024") this byte string is
`b"Jane Doe \xc2\xa92024 Acme. CC BY"`. -/
theorem C3_attribution_template :
    (∀ author ch lic year : List Nat,
      get_attribution_bytes author ch lic year =
        utf8Encode (author ++ [32, 169] ++ year ++ [32] ++ ch ++ [46, 32] ++ lic))
    ∧ get_attribution_bytes (strCodes "Jane Doe") (strCodes "Acme") (strCodes "CC BY")
        (strCodes "2024") =
      [74, 97, 110, 101, 32, 68, 111, 101, 32, 194, 169, 50, 48, 50, 52, 32,
       65, 99, 109, 101, 46, 32, 67, 67, 32, 66, 89] := by
  exact ⟨fun a c l y => rfl, by decide⟩

theorem userCommentDump_b64encode (l : List Nat) :
    userCommentDump (b64encode l) = .ok (ucPrefixAscii ++ b64encode l) := by
  rw [userCommentDump, if_pos]
  rw [List.all_eq_true]
  intro c hc
  simp only [decide_eq_true_eq]
  have := (b64encode_range l c hc).2
  omega

theorem roundTripChk_of_scalar (sig : List Nat) (hs : ∀ c ∈ sig, isScalar c = true) :
    roundTripChk sig = true := by
  rw [roundTripChk, b64decode_b64encode _ (utf8Encode_lt_256 sig hs)]
  simp [utf8Decode_utf8Encode sig hs]

/-- C2: the codec round-trips — Base64 decoding inverts encoding on every
byte string; embedding a signature text (UTF-8, Base64, ASCII UserComment
dump) and extracting it returns the text unchanged; a carrier with the
optional string header decodes identically to one without; and the signing
self-check `decode(encode(x)) == x` always passes. -/
theorem C2_codec_roundtrip :
    (∀ B : List Nat, (∀ b ∈ B, b < 256) → b64decode (b64encode B) = .ok B)
    ∧ (∀ sig : List Nat, (∀ c ∈ sig, isScalar c = true) →
        userCommentDump (b64encode (utf8Encode sig)) =
          .ok (ucPrefixAscii ++ b64encode (utf8Encode sig))
        ∧ extract_signature_from_exif
            (.bytesVal (ucPrefixAscii ++ b64encode (utf8Encode sig))) = .ok sig)
    ∧ (∀ uc : List Nat, (∀ ch ∈ uc, 43 ≤ ch) →
        decodeUserCommentStr (ucPrefixAscii ++ uc) = decodeUserCommentStr uc)
    ∧ (∀ sig : List Nat, (∀ c ∈ sig, isScalar c = true) → roundTripChk sig = true) := by
  have hstrip2 : ∀ uc : List Nat, stripSigHeader (ucPrefixAscii ++ uc) = uc := by
    intro uc
    rw [stripSigHeader, List.take_left' (show ucPrefixAscii.length = 8 from rfl), if_pos rfl, List.drop_left' (show ucPrefixAscii.length = 8 from rfl)]
  refine ⟨b64decode_b64encode, ?_, ?_, ?_⟩
  · intro sig hs
    have hb64 : ∀ ch ∈ b64encode (utf8Encode sig), 43 ≤ ch ∧ ch < 123 :=
      b64encode_range (utf8Encode sig)
    have hdump : (b64encode (utf8Encode sig)).all (fun c => decide (c < 128)) = true := by
      rw [List.all_eq_true]
      intro c hc
      simp only [decide_eq_true_eq]
      have := (hb64 c hc).2
      omega
    have hload : userCommentLoad (ucPrefixAscii ++ b64encode (utf8Encode sig)) =
        .ok (b64encode (utf8Encode sig)) := by
      rw [userCommentLoad, List.take_left' (show ucPrefixAscii.length = 8 from rfl), if_pos rfl, List.drop_left' (show ucPrefixAscii.length = 8 from rfl), if_pos hdump]
    refine ⟨by rw [userCommentDump, if_pos hdump], ?_⟩
    rw [extract_signature_from_exif, extractFromBytes, hload]
    show decodeUserCommentStr (b64encode (utf8Encode sig)) = .ok sig
    show (match b64decode (stripSigHeader (b64encode (utf8Encode sig))) with
      | .ok s => utf8Decode s
      | .error e => Except.error e) = .ok sig
    rw [stripSigHeader_noop _ (fun ch hc => (hb64 ch hc).1),
      b64decode_b64encode _ (utf8Encode_lt_256 sig hs)]
    show utf8Decode (utf8Encode sig) = .ok sig
    exact utf8Decode_utf8Encode sig hs
  · intro uc h
    have heq : stripSigHeader (ucPrefixAscii ++ uc) = stripSigHeader uc := by
      rw [hstrip2, stripSigHeader_noop uc h]
    show (match b64decode (stripSigHeader (ucPrefixAscii ++ uc)) with
      | .ok s => utf8Decode s
      | .error e => Except.error e) =
      (match b64decode (stripSigHeader uc) with
      | .ok s => utf8Decode s
      | .error e => Except.error e)
    rw [heq]
  · exact roundTripChk_of_scalar

/-- Witness for C2 at concrete inputs: the bytes `[0, 255, 10]` survive the
Base64 round trip, the signature text "SIG" survives the full
embed-and-extract loop, the header-bearing and header-less carriers decode
identically, and the self-check passes on "SIG". -/
theorem C2_witness :
    b64decode (b64encode [0, 255, 10]) = .ok [0, 255, 10]
    ∧ extract_signature_from_exif
        (.bytesVal (ucPrefixAscii ++ b64encode (utf8Encode (strCodes "SIG")))) =
        .ok (strCodes "SIG")
    ∧ decodeUserCommentStr (ucPrefixAscii ++ strCodes "U0lH") =
        decodeUserCommentStr (strCodes "U0lH")
    ∧ roundTripChk (strCodes "SIG") = true :=
  ⟨C2_codec_roundtrip.1 [0, 255, 10] (by decide),
   (C2_codec_roundtrip.2.1 (strCodes "SIG") (by decide)).2,
   C2_codec_roundtrip.2.2.1 (strCodes "U0lH") (by decide),
   C2_codec_roundtrip.2.2.2 (strCodes "SIG") (by decide)⟩

/-- C4: whitespace normalisation (spec-modelled, since `normalise_strings`
is imported from `utils` but absent from `src/utils.py`): leading and
trailing whitespace is dropped, whitespace runs collapse, and attribution
records that differ only in incidental whitespace (equal word sequences)
produce identical attribution bytes and identical fingerprints. -/
theorem C4_whitespace_normalised_attribution :
    (∀ s w, isPyWs w = true → normalise_strings (w :: s) = normalise_strings s)
    ∧ (∀ s w, isPyWs w = true → normalise_strings (s ++ [w]) = normalise_strings s)
    ∧ (∀ pre post w1 w2, isPyWs w1 = true → isPyWs w2 = true →
        normalise_strings (pre ++ w1 :: w2 :: post) = normalise_strings (pre ++ w1 :: post))
    ∧ (∀ p1 p2 : Profile, ∀ year im,
        splitWs p1.author = splitWs p2.author →
        splitWs p1.copyright = splitWs p2.copyright →
        splitWs p1.license = splitWs p2.license →
        attributionFromProfile p1 year = attributionFromProfile p2 year
        ∧ compute_visual_hash im (attributionFromProfile p1 year) =
          compute_visual_hash im (attributionFromProfile p2 year)) := by
  refine ⟨fun s w hw => normalise_strings_congr _ _ (splitWs_cons_ws w hw s),
    fun s w hw => normalise_strings_congr _ _ (splitWs_append_ws w hw s),
    fun pre post w1 w2 h1 h2 =>
      normalise_strings_congr _ _ (splitWs_collapse w1 w2 h1 h2 pre post), ?_⟩
  intro p1 p2 year im ha hc hl
  have h : attributionFromProfile p1 year = attributionFromProfile p2 year := by
    rw [attributionFromProfile, attributionFromProfile, normalise_strings_congr _ _ ha,
      normalise_strings_congr _ _ hc, normalise_strings_congr _ _ hl]
  exact ⟨h, by rw [h]⟩

/-- Witness for C4: a record with doubled and leading/trailing whitespace
produces the same attribution bytes as the tidy record. -/
theorem C4_witness :
    attributionFromProfile ⟨strCodes "  Jane   Doe ", strCodes "Acme", strCodes "CC  BY"⟩ 2024 =
      attributionFromProfile ⟨strCodes "Jane Doe", strCodes "Acme", strCodes "CC BY"⟩ 2024 :=
  (C4_whitespace_normalised_attribution.2.2.2 _ _ 2024 ⟨.RGB, false, []⟩
    (by decide) (by decide) (by decide)).1

/-- Counterexample to C5: on a tuple of two byte chunks the source decodes
only the FIRST chunk (`exif_data = exif_data[0]`), not the concatenation:
here the first-chunk decode yields "hi!" while the concatenating decode the
claim describes yields "hi!hi!". -/
theorem C5_counterexample :
    extract_signature_from_exif
        (.tup [ucPrefixAscii ++ strCodes "aGkh", strCodes "aGkh"]) = .ok (strCodes "hi!")
    ∧ specExtractConcat
        (.tup [ucPrefixAscii ++ strCodes "aGkh", strCodes "aGkh"]) = .ok (strCodes "hi!hi!")
    ∧ extract_signature_from_exif
        (.tup [ucPrefixAscii ++ strCodes "aGkh", strCodes "aGkh"]) ≠
      specExtractConcat (.tup [ucPrefixAscii ++ strCodes "aGkh", strCodes "aGkh"]) := by
  refine ⟨by decide, by decide, by decide⟩

/-- C5 as amended: decode keeps only the first chunk of a tuple of byte
chunks (it never concatenates them); empty chunk sequences and non-byte
values fail. For a field bearing the ASCII charset header whose remainder,
after stripping the optional string header, consists only of Base64
alphabet characters — the regime on which Python's lenient `b64decode`
(which first discards non-alphabet bytes) and strict RFC 4648 decoding
provably coincide — decode fails exactly when that remainder is not valid
Base64 (its length is not a multiple of four) or the Base64-decoded bytes
are not valid UTF-8, and on success it returns the UTF-8 text of the
Base64-decoded bytes. -/
theorem C5_amended_decode_first_chunk :
    (∀ b chunks, extract_signature_from_exif (.tup (b :: chunks)) =
      extract_signature_from_exif (.bytesVal b))
    ∧ extract_signature_from_exif (.tup []) = .error ()
    ∧ extract_signature_from_exif .otherVal = .error ()
    ∧ (∀ b : List Nat, b.take 8 = ucPrefixAscii →
        (∀ ch ∈ stripSigHeader (b.drop 8), isB64Char ch = true) →
        (extract_signature_from_exif (.bytesVal b) = .error () ↔
          ¬ (stripSigHeader (b.drop 8)).length % 4 = 0
          ∨ ∃ bs, b64decode (stripSigHeader (b.drop 8)) = .ok bs
              ∧ utf8Decode bs = .error ())
        ∧ ∀ text, extract_signature_from_exif (.bytesVal b) = .ok text →
            ∃ bs, b64decode (stripSigHeader (b.drop 8)) = .ok bs
              ∧ utf8Decode bs = .ok text) := by
  refine ⟨fun b chunks => rfl, rfl, rfl, ?_⟩
  intro b hpre halpha
  have hall : ((b.drop 8).all (fun c => decide (c < 128))) = true := by
    rw [List.all_eq_true]
    intro c hc
    simp only [decide_eq_true_eq]
    rw [stripSigHeader] at halpha
    split at halpha
    · rename_i hhdr
      rcases List.mem_append.mp
          ((List.take_append_drop 8 (b.drop 8)) ▸ hc) with hc2 | hc2
      · rw [hhdr] at hc2
        simp only [ucPrefixAscii, List.mem_cons, List.not_mem_nil, or_false] at hc2
        rcases hc2 with rfl | rfl | rfl | rfl | rfl | rfl | rfl | rfl <;> omega
      · have := isB64Char_range c (halpha c hc2)
        omega
    · have := isB64Char_range c (halpha c hc)
      omega
  have hext : extract_signature_from_exif (.bytesVal b) =
      (match b64decode (stripSigHeader (b.drop 8)) with
        | .ok bs => utf8Decode bs
        | .error e => Except.error e) := by
    show extractFromBytes b = _
    rw [extractFromBytes, userCommentLoad, if_pos hpre, if_pos hall]
    rfl
  have hlen := b64decode_error_iff_len _ halpha
  constructor
  · rw [hext]
    cases hdec : b64decode (stripSigHeader (b.drop 8)) with
    | error e =>
      cases e
      simp only [hdec] at hlen
      simp [hlen.mp trivial, hdec]
    | ok bs =>
      have hok : ¬ b64decode (stripSigHeader (b.drop 8)) = .error () := by simp [hdec]
      have hlen0 : (stripSigHeader (b.drop 8)).length % 4 = 0 := by
        by_contra hbad
        exact hok (hlen.mpr hbad)
      simp [hdec, hlen0]
  · intro text htext
    rw [hext] at htext
    cases hdec : b64decode (stripSigHeader (b.drop 8)) with
    | error e =>
      rw [hdec] at htext
      exact absurd htext (by simp)
    | ok bs =>
      rw [hdec] at htext
      exact ⟨bs, rfl, htext⟩

/-- Witness for C5 (amended): a field with the ASCII header and the
alphabet-only remainder "aGk" (length three, not a multiple of four) is
rejected, while the remainder "aGkh" Base64-decodes to bytes that UTF-8
decode to "hi!". -/
theorem C5_witness :
    extract_signature_from_exif (.bytesVal (ucPrefixAscii ++ strCodes "aGk")) = .error ()
    ∧ ∃ bs, b64decode (stripSigHeader ((ucPrefixAscii ++ strCodes "aGkh").drop 8)) = .ok bs
        ∧ utf8Decode bs = .ok (strCodes "hi!") :=
  ⟨((C5_amended_decode_first_chunk.2.2.2 (ucPrefixAscii ++ strCodes "aGk")
      (by decide) (by decide)).1).mpr (Or.inl (by decide)),
   (C5_amended_decode_first_chunk.2.2.2 (ucPrefixAscii ++ strCodes "aGkh")
      (by decide) (by decide)).2 (strCodes "hi!") (by decide)⟩

/-- Concrete profile used by witnesses. -/
def wProfile : Profile := ⟨strCodes "Alice", strCodes "Acme", strCodes "CC BY"⟩

/-- Concrete metadata with neither EXIF dates nor stat data. -/
def wMetaNone : FileMeta := ⟨.error (), .error ()⟩

/-- Concrete one-pixel RGB image. -/
def wImage : PILImage := ⟨.RGB, false, [(1, 2, 3, 255)]⟩

/-- Concrete carrier field: ASCII UserComment dump of `base64("SIG")`. -/
def wCarrier : ExifVal := .bytesVal (ucPrefixAscii ++ strCodes "U0lH")

/-- Concrete stored EXIF attribution: artist "Mallory" (UTF-8), copyright
holder "Acme" and license "CC BY" (UTF-16LE), plus the carrier. -/
def wStore : ExifStore :=
  ⟨some wCarrier, some (strCodes "Mallory"),
   some [65, 0, 99, 0, 109, 0, 101, 0],
   some [67, 0, 67, 0, 32, 0, 66, 0, 89, 0]⟩

/-- Counterexample to C6: on an artifact where the verifier capability runs
and returns `false`, `verify_image_signature` raises
(`ValueError("Signature verification failed.")`, here `Except.error`)
instead of returning the boolean `false` the claim requires. -/
theorem C6_counterexample :
    verify_image_signature (fun _ _ => false) wImage wMetaNone wStore wProfile 2024 =
      .error ()
    ∧ verify_image_signature (fun _ _ => false) wImage wMetaNone wStore wProfile 2024 ≠
      .ok false := ⟨by decide, by decide⟩

/-- C6 as amended: `GPGManager.verify_data` hands the mismatch back as a
boolean, and `verify_signed_image` reports a verifier mismatch as the
non-exceptional boolean `false`; but `verify_image_signature` turns the
verifier's `false` into an exception, so only the viewer path reports
Tampered non-exceptionally. -/
theorem C6_amended_tampered_reporting :
    (∀ (gpgVerify : List Nat → List Nat → Bool) im meta store profile nowYear raw sig,
      store.userComment = some raw → exifValTruthy raw = true →
      extract_signature_from_exif raw = .ok sig →
      gpgVerify (compute_image_fingerprint im meta profile nowYear) sig = false →
      verify_image_signature gpgVerify im meta store profile nowYear = .error ())
    ∧ (∀ (gpgVerify : List Nat → List Nat → Bool) im meta store nowYear raw sig,
      store.userComment = some raw → exifValTruthy raw = true →
      extract_signature_from_exif raw = .ok sig →
      gpgVerify (compute_visual_hash im
        (attributionFromExif store (extract_creation_year meta nowYear))) sig = false →
      verify_signed_image gpgVerify im meta store nowYear = false) := by
  constructor
  · intro g im meta store profile nowYear raw sig hraw htr hext hg
    simp [verify_image_signature, hraw, htr, hext, hg]
  · intro g im meta store nowYear raw sig hraw htr hext hg
    simp [verify_signed_image, hraw, htr, hext, hg]

/-- Witness for C6 (amended): with an always-false verifier on a concrete
signed store, the viewer path returns the boolean `false`. -/
theorem C6_witness :
    verify_signed_image (fun _ _ => false) wImage wMetaNone wStore 2024 = false :=
  C6_amended_tampered_reporting.2 _ wImage wMetaNone wStore 2024 wCarrier
    (strCodes "SIG") rfl (by decide) (by decide) rfl

/-- Counterexample to C7: the attribution bytes that enter the fingerprint
`verify_image_signature` recomputes are the caller's profile values
("Alice"), not the stored fields ("Mallory"): at this concrete artifact the
recomputed fingerprint differs from the fingerprint over the stored
attribution. -/
theorem C7_counterexample :
    attributionFromProfile wProfile 2024 ≠ attributionFromExif wStore 2024
    ∧ compute_image_fingerprint wImage wMetaNone wProfile 2024 =
        compute_visual_hash wImage (attributionFromProfile wProfile 2024)
    ∧ compute_image_fingerprint wImage wMetaNone wProfile 2024 ≠
        compute_visual_hash wImage (attributionFromExif wStore 2024) :=
  ⟨by decide, rfl, by decide⟩

/-- C7 as amended: `verify_signed_image` (the viewer path) recomputes the
fingerprint from the attribution re-read from the artifact's metadata
store, so stored-attribution edits change what it verifies; but
`verify_image_signature` builds the fingerprint from the caller's profile
and is insensitive to any change of the stored attribution fields. -/
theorem C7_amended_attribution_source :
    (∀ (gpgVerify : List Nat → List Nat → Bool) im meta store nowYear raw sig,
      store.userComment = some raw → exifValTruthy raw = true →
      extract_signature_from_exif raw = .ok sig →
      verify_signed_image gpgVerify im meta store nowYear =
        gpgVerify (compute_visual_hash im
          (attributionFromExif store (extract_creation_year meta nowYear))) sig)
    ∧ (∀ im meta profile nowYear,
      compute_image_fingerprint im meta profile nowYear =
        compute_visual_hash im
          (attributionFromProfile profile (extract_creation_year meta nowYear)))
    ∧ (∀ (gpgVerify : List Nat → List Nat → Bool) im meta store store2 profile nowYear,
      store.userComment = store2.userComment →
      verify_image_signature gpgVerify im meta store profile nowYear =
        verify_image_signature gpgVerify im meta store2 profile nowYear) := by
  refine ⟨?_, fun im meta profile nowYear => rfl, ?_⟩
  · intro g im meta store nowYear raw sig hraw htr hext
    simp [verify_signed_image, hraw, htr, hext]
  · intro g im meta store store2 profile nowYear h
    rw [verify_image_signature, verify_image_signature, h]

/-- Witness for C7 (amended): replacing the stored artist "Mallory" by
"Eve" while keeping the carrier leaves `verify_image_signature`'s outcome
unchanged — the stored-attribution edit is invisible to that path. -/
theorem C7_witness :
    verify_image_signature (fun _ _ => true) wImage wMetaNone wStore wProfile 2024 =
      verify_image_signature (fun _ _ => true) wImage wMetaNone
        ⟨some wCarrier, some (strCodes "Eve"), none, none⟩ wProfile 2024 :=
  C7_amended_attribution_source.2.2 _ wImage wMetaNone wStore
    ⟨some wCarrier, some (strCodes "Eve"), none, none⟩ wProfile 2024 rfl

/-- Concrete JPEG-named folder entry used by witnesses. -/
def wEntryJpg : FileEntry := ⟨strCodes "x.jpg", .ok wImage, wMetaNone⟩

/-- C8: the signing loop persists the artifact re-encoded as RGB JPEG and
only then fingerprints it: the hash that is signed and embedded is the hash
of the stored image `jpegCodec (toRGB im)` — the very bytes a verifier
re-derives from the stored file — and re-encoding is observable (a codec
exists for which the stored image hashes differently from the original). -/
theorem C8_reencode_persist_before_fingerprint :
    (∀ (jpegCodec : PILImage → PILImage) (signer : List Nat → Option (List Nat))
        (profile : Profile) (nowYear : Nat) (e : FileEntry) im sig,
      e.img = .ok im → hasJpegExt e.name = true →
      signer (compute_visual_hash (jpegCodec (toRGB im))
        (attributionFromProfile profile (extract_creation_year e.meta nowYear))) = some sig →
      (∀ c ∈ sig, isScalar c = true) →
      phase2Step jpegCodec signer profile nowYear e =
        [.signedCarrier e.name (ucPrefixAscii ++ b64encode (utf8Encode sig))])
    ∧ (∃ (jpegCodec : PILImage → PILImage) (im : PILImage) (attr : List Nat),
        compute_visual_hash (jpegCodec (toRGB im)) attr ≠ compute_visual_hash im attr) := by
  constructor
  · intro codec signer profile nowYear e im sig him hj hsig hs
    simp [phase2Step, hj, him, hsig, roundTripChk_of_scalar sig hs, userCommentDump_b64encode]
  · exact ⟨fun _ => ⟨.RGB, false, []⟩, ⟨.RGB, false, [(1, 2, 3, 255)]⟩, [], by decide⟩

/-- Witness for C8: one concrete JPEG entry is signed, and the embedded
carrier is the ASCII dump of the Base64 of the signature over the stored
image's hash. -/
theorem C8_witness :
    phase2Step (fun im => im) (fun _ => some (strCodes "SIG")) wProfile 2024 wEntryJpg =
      [.signedCarrier (strCodes "x.jpg") (ucPrefixAscii ++ strCodes "U0lH")] := by
  have h := C8_reencode_persist_before_fingerprint.1 (fun im => im)
    (fun _ => some (strCodes "SIG")) wProfile 2024 wEntryJpg wImage (strCodes "SIG")
    rfl (by decide) rfl (by decide)
  rw [h]
  decide

theorem phase1Step_no_carrier (jc : PILImage → PILImage) (cm : FileMeta) (p : Profile)
    (ny : Nat) (e : FileEntry) (n c : List Nat) :
    SignAction.signedCarrier n c ∉ (phase1Step jc cm p ny e).2 := by
  intro hc
  unfold phase1Step at hc
  split at hc
  · split at hc
    · simp at hc
    · split at hc <;> simp at hc
  · simp at hc

theorem phase1_no_carrier (jc : PILImage → PILImage) (cm : FileMeta) (p : Profile)
    (ny : Nat) (folder : List FileEntry) (n c : List Nat) :
    SignAction.signedCarrier n c ∉ (phase1 jc cm p ny folder).2 := by
  induction folder with
  | nil => simp [phase1]
  | cons e rest ih =>
    intro hc
    rw [phase1] at hc
    rcases hstep : phase1Step jc cm p ny e with ⟨oadd, a⟩
    rw [hstep] at hc
    cases oadd <;>
      simp only [List.mem_append] at hc <;>
      rcases hc with hc | hc <;>
      first
        | exact phase1Step_no_carrier jc cm p ny e n c (by rw [hstep]; exact hc)
        | exact ih hc

theorem phase1_tagged_mem (jc : PILImage → PILImage) (cm : FileMeta) (p : Profile)
    (ny : Nat) (folder : List FileEntry) (e : FileEntry) (im : PILImage)
    (he : e ∈ folder) (him : e.img = .ok im) (ht : has_transparency im = true)
    (hsup : hasSupportedExt e.name = true) (hnj : phase1IsJpeg e.name = false) :
    SignAction.taggedTransparent e.name
        (copyrightLabel p (extract_creation_year e.meta ny)) ∈
      (phase1 jc cm p ny folder).2 := by
  induction folder with
  | nil => simp at he
  | cons e0 rest ih =>
    rw [phase1]
    rcases List.mem_cons.mp he with rfl | he0
    · have hstep : phase1Step jc cm p ny e =
          (none, [SignAction.taggedTransparent e.name
            (copyrightLabel p (extract_creation_year e.meta ny))]) := by
        rw [phase1Step, if_pos (by simp [hsup, hnj]), him]
        simp [ht]
      rw [hstep]
      simp
    · rcases hstep : phase1Step jc cm p ny e0 with ⟨oadd, a⟩
      cases oadd <;> simp [hstep, ih he0]

theorem phase2Step_carrier_name (jc : PILImage → PILImage)
    (sg : List Nat → Option (List Nat)) (p : Profile) (ny : Nat) (e : FileEntry)
    (n c : List Nat) (hc : SignAction.signedCarrier n c ∈ phase2Step jc sg p ny e) :
    n = e.name ∧ hasJpegExt e.name = true := by
  by_cases hj : hasJpegExt e.name
  · refine ⟨?_, hj⟩
    unfold phase2Step at hc
    rw [if_pos hj] at hc
    split at hc
    · simp at hc
    · dsimp only [] at hc
      split at hc
      · simp at hc
      · split at hc
        · split at hc
          · simp at hc
            exact hc.1
          · simp at hc
        · simp at hc
  · unfold phase2Step at hc
    rw [if_neg hj] at hc
    simp at hc

theorem phase2_carrier_entry (jc : PILImage → PILImage)
    (sg : List Nat → Option (List Nat)) (p : Profile) (ny : Nat)
    (folder : List FileEntry) (n c : List Nat)
    (hc : SignAction.signedCarrier n c ∈ phase2 jc sg p ny folder) :
    ∃ e ∈ folder, n = e.name ∧ hasJpegExt e.name = true := by
  induction folder with
  | nil => simp [phase2] at hc
  | cons e rest ih =>
    rw [phase2] at hc
    simp only [List.map_cons, List.flatten_cons, List.mem_append] at hc
    rcases hc with hc | hc
    · exact ⟨e, by simp, phase2Step_carrier_name jc sg p ny e n c hc⟩
    · obtain ⟨e2, he2, h2⟩ := ih hc
      exact ⟨e2, by simp [he2], h2⟩

theorem phase1_adds_converted_name (jc : PILImage → PILImage) (cm : FileMeta)
    (p : Profile) (ny : Nat) (folder : List FileEntry) (a : FileEntry)
    (ha : a ∈ (phase1 jc cm p ny folder).1) :
    ∃ src : List Nat, a.name = stemOf src ++ strCodes "_converted.jpg" := by
  induction folder with
  | nil => simp [phase1] at ha
  | cons e rest ih =>
    rw [phase1] at ha
    rcases hstep : phase1Step jc cm p ny e with ⟨oadd, acts⟩
    rw [hstep] at ha
    cases oadd with
    | none => exact ih ha
    | some add =>
      rcases List.mem_cons.mp ha with rfl | ha2
      · unfold phase1Step at hstep
        split at hstep
        · split at hstep
          · simp at hstep
          · split at hstep
            · simp at hstep
            · refine ⟨e.name, ?_⟩
              have := (Prod.mk.injEq _ _ _ _).mp hstep
              have h1 := Option.some.inj this.1
              rw [← h1]
        · simp at hstep
      · exact ih ha2

theorem hasJpegExt_converted (x : List Nat) :
    hasJpegExt (x ++ strCodes "_converted.jpg") = true := by
  have h1 : toLowerCodes (x ++ strCodes "_converted.jpg") =
      toLowerCodes x ++ strCodes "_converted.jpg" := by
    rw [toLowerCodes, List.map_append]
    rfl
  have h2 : (strCodes ".jpg").isSuffixOf
      (toLowerCodes x ++ strCodes "_converted.jpg") = true := by
    rw [List.isSuffixOf_iff_suffix]
    have : toLowerCodes x ++ strCodes "_converted.jpg" =
        (toLowerCodes x ++ strCodes "_converted") ++ strCodes ".jpg" := by
      rw [List.append_assoc]
      rfl
    rw [this]
    exact List.suffix_append _ _
  rw [hasJpegExt, h1, h2]
  rfl

/-- Counterexample to C9: a transparent RGBA image (non-opaque pixel) whose
FILENAME ends in `.jpg` bypasses the transparency check — the conversion
loop only examines non-JPEG-named files — and is routed straight through
the cryptographic path: the batch run writes a CarrierField for it. -/
theorem C9_counterexample :
    has_transparency ⟨.RGBA, false, [(1, 2, 3, 0)]⟩ = true
    ∧ SignAction.signedCarrier (strCodes "x.jpg") (ucPrefixAscii ++ strCodes "U0lH") ∈
        sign_images_in_folder (fun im => im) (fun _ => some (strCodes "SIG")) wMetaNone
          wProfile 2024
          [⟨strCodes "x.jpg", .ok ⟨.RGBA, false, [(1, 2, 3, 0)]⟩, wMetaNone⟩] :=
  ⟨by decide, by decide⟩

/-- C9 as amended: a transparent image whose filename is NOT
JPEG-extensioned (under both the `splitext` check of the conversion loop
and the `endswith` check of the signing loop) but has a supported format
extension is tagged with the lightweight non-cryptographic label and never
receives a CarrierField; transparent images with `.jpg`/`.jpeg` names are
not protected by this exclusion. -/
theorem C9_amended_transparency_exclusion :
    ∀ (jc : PILImage → PILImage) (sg : List Nat → Option (List Nat)) (cm : FileMeta)
      (p : Profile) (ny : Nat) (folder : List FileEntry) (e : FileEntry) (im : PILImage),
      e ∈ folder → e.img = .ok im → has_transparency im = true →
      hasSupportedExt e.name = true → phase1IsJpeg e.name = false →
      hasJpegExt e.name = false →
      (SignAction.taggedTransparent e.name
          (copyrightLabel p (extract_creation_year e.meta ny)) ∈
        sign_images_in_folder jc sg cm p ny folder)
      ∧ ∀ c, SignAction.signedCarrier e.name c ∉
          sign_images_in_folder jc sg cm p ny folder := by
  intro jc sg cm p ny folder e im he him ht hsup hnj hj
  rcases h1 : phase1 jc cm p ny folder with ⟨adds, acts1⟩
  constructor
  · rw [sign_images_in_folder, h1]
    refine List.mem_append.mpr (Or.inl ?_)
    have := phase1_tagged_mem jc cm p ny folder e im he him ht hsup hnj
    rw [h1] at this
    exact this
  · intro c hc
    rw [sign_images_in_folder, h1] at hc
    rcases List.mem_append.mp hc with hc | hc
    · have := phase1_no_carrier jc cm p ny folder e.name c
      rw [h1] at this
      exact this hc
    · obtain ⟨e2, _, hname, hjp⟩ := phase2_carrier_entry jc sg p ny _ _ _ hc
      rw [hname] at hj
      rw [hjp] at hj
      simp at hj

/-- Witness for C9 (amended): a transparent `.png` entry is tagged and no
carrier is ever written for it. -/
theorem C9_witness :
    (SignAction.taggedTransparent (strCodes "x.png")
        (copyrightLabel wProfile (extract_creation_year wMetaNone 2024)) ∈
      sign_images_in_folder (fun im => im) (fun _ => some (strCodes "SIG")) wMetaNone
        wProfile 2024
        [⟨strCodes "x.png", .ok ⟨.RGBA, false, [(1, 2, 3, 0)]⟩, wMetaNone⟩])
    ∧ ∀ c, SignAction.signedCarrier (strCodes "x.png") c ∉
        sign_images_in_folder (fun im => im) (fun _ => some (strCodes "SIG")) wMetaNone
          wProfile 2024
          [⟨strCodes "x.png", .ok ⟨.RGBA, false, [(1, 2, 3, 0)]⟩, wMetaNone⟩] :=
  C9_amended_transparency_exclusion (fun im => im) (fun _ => some (strCodes "SIG"))
    wMetaNone wProfile 2024
    [⟨strCodes "x.png", .ok ⟨.RGBA, false, [(1, 2, 3, 0)]⟩, wMetaNone⟩]
    ⟨strCodes "x.png", .ok ⟨.RGBA, false, [(1, 2, 3, 0)]⟩, wMetaNone⟩
    ⟨.RGBA, false, [(1, 2, 3, 0)]⟩ (List.mem_singleton.mpr rfl) rfl
    (by decide) (by decide) (by decide) (by decide)

/-- Counterexample to C10: with `DateTimeOriginal = "garbage"` (populated
but unparseable) and `DateTimeDigitized = "2001:01:01 00:00:00"`
(parseable), one of the three tags parses, yet the source returns the
file-timestamp year 1999: the `strptime` failure on the first populated tag
aborts the whole EXIF block instead of trying the remaining tags. -/
theorem C10_counterexample :
    parseDT (strCodes "2001:01:01 00:00:00") = some 2001
    ∧ specFirstParsedYear [some (strCodes "garbage"),
        some (strCodes "2001:01:01 00:00:00"), none] = some 2001
    ∧ extract_creation_year ⟨.ok ⟨some (strCodes "garbage"),
        some (strCodes "2001:01:01 00:00:00"), none⟩, .ok ((1999, 5), (2005, 1))⟩ 2030 = 1999
    ∧ (1999 : Nat) ≠ 2001 :=
  ⟨by decide, by decide, by decide, by decide⟩

/-- C10 as amended: `extract_creation_year` is total — it returns the year
of the FIRST populated EXIF date tag when that tag parses (a parse failure
abandons EXIF entirely; the remaining tags are not consulted), otherwise
the year of the earlier of ctime and mtime, otherwise the current year —
and the fingerprint depends on this year, hence on filesystem timestamps
whenever EXIF dates are absent or unparseable. -/
theorem C10_amended_total_year_extraction :
    (∀ m now y, exifYearOf m = some y → extract_creation_year m now = y)
    ∧ (∀ d st, exifYearOf ⟨.ok d, st⟩ =
        match firstTruthy [d.dtOriginal, d.dtDigitized, d.dtDateTime] with
        | none => none
        | some v => parseDT v)
    ∧ (∀ m now ct mt, exifYearOf m = none → m.statRes = .ok (ct, mt) →
        extract_creation_year m now = (dtMin ct mt).1)
    ∧ (∀ m now, exifYearOf m = none → m.statRes = .error () →
        extract_creation_year m now = now)
    ∧ (∀ im meta profile now, compute_image_fingerprint im meta profile now =
        compute_visual_hash im
          (attributionFromProfile profile (extract_creation_year meta now))) := by
  refine ⟨?_, ?_, ?_, ?_, fun im meta profile now => rfl⟩
  · intro m now y h
    rw [extract_creation_year, h]
  · intro d st
    rfl
  · intro m now ct mt hex hst
    rw [extract_creation_year, hex, hst]
  · intro m now hex hst
    rw [extract_creation_year, hex, hst]

/-- Witness for C10 (amended): with no EXIF dates and ctime 1999 earlier
than mtime 2005, the extracted year is 1999 — the fingerprint silently
depends on the filesystem timestamps. -/
theorem C10_witness :
    extract_creation_year ⟨.error (), .ok ((1999, 5), (2005, 1))⟩ 2030 = 1999 :=
  (C10_amended_total_year_extraction.2.2.1 ⟨.error (), .ok ((1999, 5), (2005, 1))⟩ 2030
    (1999, 5) (2005, 1) rfl rfl).trans (by decide)

end ImageIP
